import Mathlib

/-!
# Verification of the WearOS forensic triage pipeline

Shallow embedding of the decision logic of `wa3.py` (and the small variant
`wa.py`): discovery of application SQLite databases, sandbox staging,
introspection, content classification (Hangul / email detection) and the
relevance scorer that folds the per-table results into ranked evidence items.

Python strings become `String`, rows are lists of cells
(`Option String`: `None` versus a value already coerced by `str`),
machine integers are `Nat` (row counts and file sizes are non-negative and
never overflow in the source's range), fallible external calls are modelled
by `Except`/`Option` results recorded in the input structures, and the
Python `re` searches for the two fixed patterns are implemented directly
with the backtracking semantics of the `re` module specialised to those
patterns.
-/

/-! ## Character classes

`wa3.py` classifies cell text with two fixed regular expressions:
`[가-힣]` (Hangul syllables, U+AC00 .. U+D7A3) and the email pattern
`\b[A-Za-z0-9._%+-]+@[A-Za-z0-9.-]+\.[A-Z|a-z]{2,}\b`  (note that the
character class of the top-level-domain part literally contains `|`).
-/

/-- A Hangul syllable, the range of the source's `[가-힣]` class. -/
def isHangul (c : Char) : Bool :=
  0xAC00 ≤ c.toNat && c.toNat ≤ 0xD7A3

/-- ASCII letter or digit. -/
def isAsciiAlphaNum (c : Char) : Bool :=
  c.isAlpha || c.isDigit

/-- A word character for `\b`: Python's `\w` restricted to the characters
that can occur in this development's inputs (ASCII word characters and
Hangul syllables, which Python treats as word characters). -/
def isWordChar (c : Char) : Bool :=
  isAsciiAlphaNum c || c == '_' || isHangul c

/-- The class `[A-Za-z0-9._%+-]` of the local part. -/
def isLocalChar (c : Char) : Bool :=
  isAsciiAlphaNum c || c == '.' || c == '_' || c == '%' || c == '+' || c == '-'

/-- The class `[A-Za-z0-9.-]` of the domain part. -/
def isDomainChar (c : Char) : Bool :=
  isAsciiAlphaNum c || c == '.' || c == '-'

/-- The class `[A-Z|a-z]` of the top-level-domain part (it contains `|`). -/
def isTldChar (c : Char) : Bool :=
  c.isAlpha || c == '|'

/-- Whether position `i` holds a word character (`false` outside the text). -/
def wordAt (s : List Char) (i : Nat) : Bool :=
  match s[i]? with
  | some c => isWordChar c
  | none => false

/-- Whether a word character stands right before position `i`. -/
def prevWordAt (s : List Char) (i : Nat) : Bool :=
  match i with
  | 0 => false
  | j + 1 => wordAt s j

/-- Python's `\b`: the two sides of position `i` differ in wordness. -/
def isBoundary (s : List Char) (i : Nat) : Bool :=
  prevWordAt s i != wordAt s i

/-- Length of the maximal run of characters satisfying `p` at the head. -/
def runLen (p : Char → Bool) : List Char → Nat
  | [] => 0
  | c :: cs => if p c then runLen p cs + 1 else 0

/-- One anchored match attempt of the email pattern at position `i`,
with the greedy backtracking order of Python `re`: the local-part run is
forced (its class excludes `@`), the domain run backtracks from longest to
shortest to leave a literal `.`, and the TLD run backtracks from longest to
length 2 to satisfy the final `\b`.  Returns the end position of the match. -/
def matchEmailAt (s : List Char) (i : Nat) : Option Nat :=
  if isBoundary s i then
    let l := runLen isLocalChar (s.drop i)
    if l == 0 then none
    else if s[i + l]? == some '@' then
      let k := i + l + 1
      let d := runLen isDomainChar (s.drop k)
      (List.range d).reverse.findSome? fun dd1 =>
        let dd := dd1 + 1
        if s[k + dd]? == some '.' then
          let t0 := k + dd + 1
          let tm := runLen isTldChar (s.drop t0)
          if tm < 2 then none
          else
            (List.range (tm - 1)).reverse.findSome? fun tl2 =>
              let tl := tl2 + 2
              if isBoundary s (t0 + tl) then some (t0 + tl) else none
        else none
    else none
  else none

/-- The scan of `re.findall`: try a match at every position from left to
right, and continue after the end of each non-overlapping match.  The fuel
argument bounds the recursion; `length + 1` steps always suffice because
the position strictly increases. -/
def scanEmails (s : List Char) : Nat → Nat → List (List Char)
  | 0, _ => []
  | fuel + 1, i =>
    if s.length ≤ i then []
    else
      match matchEmailAt s i with
      | some e => ((s.drop i).take (e - i)) :: scanEmails s fuel e
      | none => scanEmails s fuel (i + 1)

/-- `extract_emails` (wa3.py): all matches of the email pattern, in order,
repetitions kept. -/
def extract_emails (text : String) : List String :=
  (scanEmails text.data (text.data.length + 1) 0).map fun l => String.mk l

/-- `has_email_pattern` (wa3.py): `re.search` succeeds exactly when the
pattern has at least one match. -/
def has_email_pattern (text : String) : Bool :=
  !(extract_emails text).isEmpty

/-- `count_korean_chars` (wa3.py): number of Hangul code points. -/
def count_korean_chars (text : String) : Nat :=
  (text.data.filter isHangul).length

/-- `has_korean_text` (wa3.py): `re.search` of `[가-힣]` succeeds exactly
when some Hangul code point occurs. -/
def has_korean_text (text : String) : Bool :=
  text.data.any isHangul

example : extract_emails "alice@example.com noreply@service.com" =
    ["alice@example.com", "noreply@service.com"] := by rfl

example : extract_emails "noreply@service.com alice@example.com" =
    ["noreply@service.com", "alice@example.com"] := by rfl

example : extract_emails "안녕 a@b.com a@b.com" = ["a@b.com", "a@b.com"] := by rfl

example : extract_emails "a@b.c nope" = [] := by rfl

example : count_korean_chars "안녕 a@b.com a@b.com" = 2 := by rfl

/-! ## Content classification (`analyze_table_content`) -/

/-- A sampled cell.  `none` is Python's `None`; a present value is the text
the source obtains with `str(cell)`. -/
abbrev Cell := Option String

/-- A sampled row. -/
abbrev Row := List Cell

/-- `str(cell) if cell is not None else ""` (wa3.py line 803). -/
def cellStr : Cell → String
  | none => ""
  | some s => s

/-- The four counters accumulated by `analyze_table_content`. -/
structure ClassAcc where
  has_korean : Bool
  has_email : Bool
  korean_count : Nat
  email_count : Nat
deriving DecidableEq, Repr

/-- The per-cell body of the `analyze_table_content` loops. -/
def classifyCell (acc : ClassAcc) (cell : Cell) : ClassAcc :=
  let s := cellStr cell
  let acc1 :=
    if has_korean_text s then
      { acc with has_korean := true, korean_count := acc.korean_count + count_korean_chars s }
    else acc
  if has_email_pattern s then
    { acc1 with has_email := true, email_count := acc1.email_count + (extract_emails s).length }
  else acc1

/-- The two nested loops of `analyze_table_content` over rows and cells. -/
def classifyRows (rows : List Row) : ClassAcc :=
  rows.foldl (fun a r => r.foldl classifyCell a) ⟨false, false, 0, 0⟩

/-- The part of a table record that exists before classification. -/
structure RawTable where
  table : String
  columns : List String
  rows : List Row
  row_count : Nat
  is_important : Bool
deriving DecidableEq, Repr

/-- The `rows` slot of an analyzed-table record: real sampled rows, or the
error text that the sentinel records store in its place. -/
inductive RowsField where
  | rows : List Row → RowsField
  | errorText : String → RowsField
deriving DecidableEq, Repr

/-- One analyzed table (the dictionary built by `analyze_sqlite_db` and
enriched by `analyze_table_content`).  The sentinel records of the Python
source omit some keys and the report reads them back with `.get(key, 0)` /
`.get(key)`; the embedding stores those defaults directly. -/
structure TInfo where
  table : String
  columns : List String
  rowsField : RowsField
  row_count : Nat
  is_important : Bool
  has_korean : Bool
  has_email : Bool
  korean_count : Nat
  email_count : Nat
deriving DecidableEq, Repr

/-- `analyze_table_content` (wa3.py lines 793-822): classify the sampled
rows and attach the counters to the table record.  Total: a `None` cell is
coerced to `""` by `cellStr` and no path raises. -/
def analyze_table_content (raw : RawTable) : TInfo :=
  let c := classifyRows raw.rows
  { table := raw.table
    columns := raw.columns
    rowsField := .rows raw.rows
    row_count := raw.row_count
    is_important := raw.is_important
    has_korean := c.has_korean
    has_email := c.has_email
    korean_count := c.korean_count
    email_count := c.email_count }

/-! ## Substring helpers (Python's `in` on strings, and `.lower()`) -/

/-- `listPrefix p l`: `p` is a prefix of `l`. -/
def listPrefix : List Char → List Char → Bool
  | [], _ => true
  | _ :: _, [] => false
  | a :: as, b :: bs => a == b && listPrefix as bs

/-- `hasSub p l`: `p` occurs as a contiguous run inside `l`. -/
def hasSub (p : List Char) : List Char → Bool
  | [] => listPrefix p []
  | c :: cs => listPrefix p (c :: cs) || hasSub p cs

/-- Python's `pat in hay` on strings. -/
def strContains (hay pat : String) : Bool :=
  hasSub pat.data hay.data

/-- Python's `s.endswith(suffix)`. -/
def strEndsWith (s suffix : String) : Bool :=
  listPrefix suffix.data.reverse s.data.reverse

/-- Python's `pat.lower() in hay.lower()` (ASCII lowering, the only kind the
source's patterns exercise). -/
def strContainsCI (hay pat : String) : Bool :=
  hasSub (pat.data.map Char.toLower) (hay.data.map Char.toLower)

example : strContains "com.kakao.talk.other" "com.kakao.talk" = true := by rfl
example : strContains "net.daum.android.map" "com.whatsapp" = false := by rfl
example : strContainsCI "OpenChatRoom" "chat" = true := by rfl

/-! ## The category catalog (`get_app_categories`, wa3.py lines 694-749) -/

/-- One catalog entry: category name, identifier substrings, priority. -/
structure CatRule where
  category : String
  apps : List String
  priority : Nat
deriving DecidableEq, Repr

/-- `get_app_categories` (wa3.py): the static catalog, in the source's
dictionary order. -/
def app_categories : List CatRule :=
  [ { category := "messaging"
      apps := ["com.kakao.talk", "jp.naver.line.android", "com.whatsapp",
               "com.facebook.orca", "com.discord", "org.telegram.messenger",
               "com.skype.raider", "com.viber.voip"]
      priority := 1 }
  , { category := "social"
      apps := ["com.instagram.android", "com.facebook.katana", "com.twitter.android",
               "com.snapchat.android", "com.tiktok.musically", "com.linkedin.android",
               "com.reddit.frontpage"]
      priority := 2 }
  , { category := "media"
      apps := ["com.spotify.music", "com.netflix.mediaclient", "com.youtube.android",
               "com.soundcloud.android", "com.coffeebeanventures.easyvoicerecorder",
               "com.google.android.apps.photos", "com.amazon.mp3"]
      priority := 2 }
  , { category := "productivity"
      apps := ["com.google.android.keep", "com.evernote", "com.microsoft.office.onenote",
               "com.todoist", "com.any.do", "com.dropbox.android", "com.notion.id"]
      priority := 1 }
  , { category := "email"
      apps := ["com.google.android.gm", "com.microsoft.office.outlook",
               "com.yahoo.mobile.client.android.mail", "com.apple.android.mail"]
      priority := 2 }
  , { category := "navigation"
      apps := ["net.daum.android.map", "com.google.android.apps.maps", "com.waze",
               "com.here.app.maps"]
      priority := 3 }
  , { category := "system"
      apps := ["com.google.android.gms", "com.android.vending", "com.samsung",
               "com.sec.", "android", "com.google.android.gsf"]
      priority := 4 } ]

/-- `get_important_tables_by_app` (wa3.py lines 979-1002): the static
important-table-name patterns, in the source's dictionary order. -/
def table_patterns : List (String × List String) :=
  [ ("com.kakao.talk", ["chat", "message", "friend", "room", "OpenChatRoom"])
  , ("jp.naver.line.android", ["chat", "message", "contact", "room", "group"])
  , ("com.whatsapp", ["messages", "chat", "contacts", "group"])
  , ("com.google.android.keep", ["note", "list", "reminder", "label"])
  , ("com.coffeebeanventures.easyvoicerecorder", ["recording", "voice", "audio"])
  , ("com.instagram.android", ["user", "media", "story", "direct"])
  , ("com.spotify.music", ["track", "playlist", "user", "offline"])
  , ("com.netflix.mediaclient", ["profile", "viewing", "download"])
  , ("com.google.android.gm", ["message", "conversation", "label", "attachment"])
  , ("com.evernote", ["note", "notebook", "tag", "resource"])
  , ("com.dropbox.android", ["file", "sync", "account"])
  , ("com.discord", ["message", "channel", "guild", "user"])
  , ("org.telegram.messenger", ["message", "chat", "contact", "media"]) ]

/-- `get_important_tables_by_app` (wa3.py): first key that is a substring of
the app identifier wins; `none` means "analyze every table". -/
def get_important_tables_by_app (app_name : String) : Option (List String) :=
  (table_patterns.find? fun kp => strContains app_name kp.1).map (·.2)

/-- Case-insensitive table-name importance test
(`any(pattern.lower() in table.lower() for pattern in important_patterns)`). -/
def isImpName (pats : List String) (name : String) : Bool :=
  pats.any fun p => strContainsCI name p

/-- The category lookup of `generate_html_forensic_report` (wa3.py lines
1144-1151): first catalog rule with a matching identifier substring wins;
a database of an unmatched app falls to the default category `"기타"` with
priority 5. -/
def categorize (app_name : String) : String × Nat :=
  match app_categories.find? (fun c => c.apps.any fun p => strContains app_name p) with
  | some c => (c.category, c.priority)
  | none => ("기타", 5)

example : categorize "com.whatsapp" = ("messaging", 1) := by rfl
example : categorize "net.daum.android.map" = ("navigation", 3) := by rfl
example : categorize "com.unknown.xyz" = ("기타", 5) := by rfl

/-! ## Secure copy / sandbox (`copy_db_with_sudo`, wa3.py lines 605-692) -/

/-- Outcomes of the external operations `copy_db_with_sudo` performs for one
candidate.  Each field records whether the corresponding `sudo` call
returned success; a timeout or raised exception on the copy is covered by
`copyOk = false` (both paths return `None` in the source). -/
structure SandboxEnv where
  copyOk : Bool
  copiedExists : Bool
  chmodOk : Bool
  chownOk : Bool
  finalExists : Bool
deriving DecidableEq, Repr

/-- `copy_db_with_sudo`: copy the candidate into the workspace, then attempt
`chmod 644` and `chown`.  The translation keeps the control flow of the
source: a failed copy or a missing copied file returns `none`; the chmod and
chown results are only logged (no early return reads them); the final
existence check decides the result. -/
def copy_db_with_sudo (env : SandboxEnv) (tempDir dbName : String) : Option String :=
  if !env.copyOk then none
  else if !env.copiedExists then none
  else if env.finalExists then some (tempDir ++ "/" ++ dbName)
  else none

/-! ## SQLite introspector (`analyze_sqlite_db`, wa3.py lines 1004-1117) -/

instance {ε α : Type} [DecidableEq ε] [DecidableEq α] : DecidableEq (Except ε α) := fun
  | .error e, .error f =>
    if h : e = f then .isTrue (by rw [h]) else .isFalse (by intro hh; cases hh; exact h rfl)
  | .error _, .ok _ => .isFalse (by intro h; cases h)
  | .ok _, .error _ => .isFalse (by intro h; cases h)
  | .ok a, .ok b =>
    if h : a = b then .isTrue (by rw [h]) else .isFalse (by intro hh; cases hh; exact h rfl)

/-- The per-table query results the introspector consumes: `PRAGMA
table_info`, `SELECT COUNT(*)` and the bounded `SELECT * ... LIMIT`.
An `Except.error` is the text of the exception that query raised. -/
structure TableData where
  name : String
  schemaQ : Except String (List String)
  countQ : Except String Nat
  sampleQ : Except String (List Row)
deriving DecidableEq, Repr

/-- One candidate database file as the introspector sees it: either the
open/enumerate step fails with an error text, or it yields the table list
in `sqlite_master` order. -/
structure DbFile where
  openQ : Except String (List TableData)
deriving DecidableEq, Repr

/-- The sentinel for a whole-database failure (`DB_ERROR`). -/
def dbErrorSentinel (e : String) : TInfo :=
  { table := "DB_ERROR", columns := [], rowsField := .errorText ("DB 연결 오류: " ++ e)
    row_count := 0, is_important := false, has_korean := false, has_email := false
    korean_count := 0, email_count := 0 }

/-- The sentinel for a failed copy (`COPY_ERROR`).  The source's dictionary
carries only `table`, `columns` and `rows`; the report later reads the
missing keys through `.get` defaults, which the embedding stores. -/
def copyErrorSentinel (dbPath : String) : TInfo :=
  { table := "COPY_ERROR", columns := [], rowsField := .errorText ("파일 복사 실패: " ++ dbPath)
    row_count := 0, is_important := false, has_korean := false, has_email := false
    korean_count := 0, email_count := 0 }

/-- The sentinel for a single table whose query raised (`row_count` 0 and
the error text in place of rows). -/
def querySentinel (name e : String) : TInfo :=
  { table := name, columns := [], rowsField := .errorText ("테이블 분석 오류: " ++ e)
    row_count := 0, is_important := false, has_korean := false, has_email := false
    korean_count := 0, email_count := 0 }

/-- The body of the introspector's per-table loop: the three queries run in
source order inside one `try`, so the first failure produces the sentinel;
on success the record is classified by `analyze_table_content`. -/
def analyzeOneTable (pats : Option (List String)) (t : TableData) : TInfo :=
  match t.schemaQ with
  | .error e => querySentinel t.name e
  | .ok cols =>
    match t.countQ with
    | .error e => querySentinel t.name e
    | .ok n =>
      match t.sampleQ with
      | .error e => querySentinel t.name e
      | .ok rows =>
        let isImp := match pats with
          | some ps => isImpName ps t.name
          | none => false
        analyze_table_content
          { table := t.name, columns := cols, rows := rows, row_count := n
            is_important := isImp }

/-- The table-priority reordering of `analyze_sqlite_db` (lines 1029-1046):
with an important-pattern set, matching tables first and the rest after,
each side in original order (a single pass appending to two lists); with no
pattern set, the original enumeration order. -/
def orderTables (pats : Option (List String)) (ts : List TableData) : List TableData :=
  match pats with
  | none => ts
  | some ps =>
    (ts.filter fun t => isImpName ps t.name) ++ (ts.filter fun t => !isImpName ps t.name)

/-- `analyze_sqlite_db` on the path the pipeline takes (a workspace is
present, so the candidate is staged first): a failed copy yields the single
`COPY_ERROR` sentinel, a failed open yields the single `DB_ERROR` sentinel,
and otherwise every table of the reordered list is analyzed independently. -/
def analyze_sqlite_db (env : SandboxEnv) (tempDir dbPath : String) (db : DbFile)
    (app_name : Option String) : List TInfo :=
  match copy_db_with_sudo env tempDir dbPath with
  | none => [copyErrorSentinel dbPath]
  | some _ =>
    match db.openQ with
    | .error e => [dbErrorSentinel e]
    | .ok tabs =>
      let pats := app_name.bind get_important_tables_by_app
      (orderTables pats tabs).map (analyzeOneTable pats)

/-! ## Stable sort by `(first ascending, second descending)`

Both `list.sort` calls of the source use `key=lambda x: (a(x), -b(x))` on a
Python stable sort.  The embedding fixes insertion sort — extensionally
equal to any stable sort by the same key — as the model. -/

/-- The lexicographic order on keys `(a, b)`: ascending in `a`, descending
in `b` (Python's tuple order on `(a, -b)`). -/
def keyLE (k1 k2 : Nat × Nat) : Prop :=
  k1.1 < k2.1 ∨ (k1.1 = k2.1 ∧ k2.2 ≤ k1.2)

instance (k1 k2 : Nat × Nat) : Decidable (keyLE k1 k2) := by
  unfold keyLE; infer_instance

/-- `keyLE` lifted through a key function. -/
def keyRel {α : Type} (key : α → Nat × Nat) (a b : α) : Prop :=
  keyLE (key a) (key b)

instance {α : Type} (key : α → Nat × Nat) : DecidableRel (keyRel key) := by
  intro a b; unfold keyRel; infer_instance

theorem keyLE_refl (k : Nat × Nat) : keyLE k k :=
  Or.inr ⟨rfl, Nat.le_refl _⟩

instance {α : Type} (key : α → Nat × Nat) : IsTotal α (keyRel key) := by
  constructor
  intro a b
  rcases Nat.lt_trichotomy (key a).1 (key b).1 with h | h | h
  · exact Or.inl (Or.inl h)
  · rcases Nat.le_total (key b).2 (key a).2 with h2 | h2
    · exact Or.inl (Or.inr ⟨h, h2⟩)
    · exact Or.inr (Or.inr ⟨h.symm, h2⟩)
  · exact Or.inr (Or.inl h)

instance {α : Type} (key : α → Nat × Nat) : IsTrans α (keyRel key) := by
  constructor
  intro a b c hab hbc
  rcases hab with h1 | ⟨e1, r1⟩
  · rcases hbc with h2 | ⟨e2, _⟩
    · exact Or.inl (Nat.lt_trans h1 h2)
    · exact Or.inl (e2 ▸ h1)
  · rcases hbc with h2 | ⟨e2, r2⟩
    · exact Or.inl (e1 ▸ h2)
    · exact Or.inr ⟨e1.trans e2, Nat.le_trans r2 r1⟩

/-- The model of Python's stable `list.sort(key=lambda x: (a(x), -b(x)))`. -/
def sortByKey {α : Type} (key : α → Nat × Nat) (l : List α) : List α :=
  l.insertionSort (keyRel key)

theorem sortByKey_pairwise {α : Type} (key : α → Nat × Nat) (l : List α) :
    (sortByKey key l).Pairwise (keyRel key) :=
  List.sorted_insertionSort (keyRel key) l

theorem sortByKey_perm {α : Type} (key : α → Nat × Nat) (l : List α) :
    (sortByKey key l).Perm l :=
  List.perm_insertionSort (keyRel key) l

theorem filter_key_orderedInsert {α : Type} (key : α → Nat × Nat) (a : α) (k : Nat × Nat) :
    ∀ l : List α,
      (l.orderedInsert (keyRel key) a).filter (fun x => decide (key x = k)) =
        if key a = k then a :: l.filter (fun x => decide (key x = k))
        else l.filter (fun x => decide (key x = k))
  | [] => by
    simp only [List.orderedInsert, List.filter]
    by_cases h : key a = k <;> simp [h]
  | y :: ys => by
    by_cases hr : keyRel key a y
    · rw [List.orderedInsert_of_le _ _ hr]
      by_cases h : key a = k <;> simp [List.filter, h]
    · have hne : ¬ key a = key y := fun he => hr (by unfold keyRel; rw [he]; exact keyLE_refl _)
      simp only [List.orderedInsert, if_neg hr]
      by_cases hy : key y = k
      · have ha : ¬ key a = k := fun h => hne (h.trans hy.symm)
        simp [List.filter, hy, ha, filter_key_orderedInsert key a k ys]
      · by_cases ha : key a = k <;>
          simp [List.filter, hy, ha, filter_key_orderedInsert key a k ys]

/-- Stability: the elements carrying any fixed key keep their original
relative order (their subsequence is unchanged by the sort). -/
theorem filter_key_sortByKey {α : Type} (key : α → Nat × Nat) (k : Nat × Nat) :
    ∀ l : List α,
      (sortByKey key l).filter (fun x => decide (key x = k)) =
        l.filter (fun x => decide (key x = k))
  | [] => rfl
  | a :: l => by
    have ih := filter_key_sortByKey key k l
    unfold sortByKey at ih ⊢
    show ((List.insertionSort _ l).orderedInsert (keyRel key) a).filter _ = _
    rw [filter_key_orderedInsert]
    by_cases h : key a = k <;> simp [List.filter, h, ih]

/-! ## Filesystem scanner (`find_database_files`, wa3.py lines 824-977, and
`find_databases`, wa.py lines 21-23) -/

/-- One entry of an external directory listing, as the parsed `ls -la`
output presents it to the scanner: a name, whether the mode string starts
with `d`, and the size `stat -c %s` reports (0 when that call fails). -/
structure DirEntry where
  name : String
  isDir : Bool
  size : Nat
deriving DecidableEq, Repr

/-- The part of the mounted filesystem the two scanners consult: the
entries of the root data directory, and for every app folder name the
entries of its conventional `databases` subdirectory (`[]` when the folder
is missing or its listing fails — both contribute nothing in the source). -/
structure ScanFS where
  rootEntries : List DirEntry
  dbEntries : String → List DirEntry

/-- Stage 1 of `find_database_files`: candidate app folders are the
directories of the root listing whose name looks like a package name
(contains a dot and is neither `.` nor `..`). -/
def app_folders (fs : ScanFS) : List String :=
  (fs.rootEntries.filter fun e =>
    e.isDir && e.name.data.contains '.' && !(e.name == ".") && !(e.name == "..")).map (·.name)

/-- Stage 2 preparation: for every catalog rule of priority ≤ 2, for every
identifier pattern, every matching app folder is appended (this is the
source's whole candidate-app selection — no other strategy feeds the merged
list).  Fields: app folder, category, priority. -/
def priority_apps (fs : ScanFS) : List (String × String × Nat) :=
  app_categories.flatMap fun c =>
    if c.priority ≤ 2 then
      c.apps.flatMap fun pat =>
        (app_folders fs).filterMap fun a =>
          if strContains a pat then some (a, c.category, c.priority) else none
    else []

/-- The `.db` files a probe of one app's `databases` folder yields
(name and size). -/
def dbFilesOf (fs : ScanFS) (app : String) : List (String × Nat) :=
  (fs.dbEntries app).filterMap fun f =>
    if !f.isDir && strEndsWith f.name ".db" && !(f.name == ".") && !(f.name == "..") then
      some (f.name, f.size)
    else none

/-- An absolute path under the mount point, kept as its components
(`os.path.join` is injective component-wise). -/
def dbPath (app fname : String) : List String :=
  ["data", app, "databases", fname]

/-- One discovered candidate (`db_info_list` entry). -/
structure DbCand where
  path : List String
  app_name : String
  db_name : String
  size_bytes : Nat
  category : String
  priority : Nat
deriving DecidableEq, Repr

/-- The unsorted merged candidate list of `find_database_files`: one entry
per `.db` file per `priority_apps` occurrence of its app folder. -/
def db_info_list (fs : ScanFS) : List DbCand :=
  (priority_apps fs).flatMap fun acp =>
    (dbFilesOf fs acp.1).map fun nsz =>
      { path := dbPath acp.1 nsz.1, app_name := acp.1, db_name := nsz.1
        size_bytes := nsz.2, category := acp.2.1, priority := acp.2.2 }

/-- `find_database_files` before projecting to paths:
`db_info_list.sort(key=lambda x: (x["priority"], -x["size_bytes"]))`. -/
def find_database_files_info (fs : ScanFS) : List DbCand :=
  sortByKey (fun d => (d.priority, d.size_bytes)) (db_info_list fs)

/-- `find_database_files` (wa3.py): the returned `db_paths`. -/
def find_database_files (fs : ScanFS) : List (List String) :=
  (find_database_files_info fs).map (·.path)

/-- `find_databases` (wa.py line 22): the broad
`glob(data/data/*/databases/*.db)` over the same tree — every `.db` file of
every app folder, with no catalog involvement. -/
def wa_find_databases (fs : ScanFS) : List (List String) :=
  (fs.rootEntries.filter (·.isDir)).flatMap fun e =>
    (fs.dbEntries e.name).filterMap fun f =>
      if !f.isDir && strEndsWith f.name ".db" then some (dbPath e.name f.name) else none

/-! ## Relevance scorer / evidence aggregator
(`generate_html_forensic_report`, wa3.py lines 1119-1226) -/

/-- One analyzed database as the report generator receives it: the path
relative to the data root and the introspector's table list. -/
structure DbSummary where
  rel_path : String
  tables : List TInfo
deriving DecidableEq, Repr

/-- `rel_path.split('/')[0]` — the owning app identifier: the prefix of the
relative path up to the first `/` (the first field of the split). -/
def appNameOf (db : DbSummary) : String :=
  String.mk (db.rel_path.data.takeWhile fun c => c != '/')

/-- The skip test of the report loop: sentinel names are not analyzed
tables. -/
def isErrName (t : TInfo) : Bool :=
  t.table == "DB_ERROR" || t.table == "COPY_ERROR"

/-- The tables the report loop iterates (non-sentinel entries). -/
def nonErrorTables (ts : List TInfo) : List TInfo :=
  ts.filter fun t => !isErrName t

/-- The tables that enter the partition: those with `row_count > 0`. -/
def dataTables (ts : List TInfo) : List TInfo :=
  (nonErrorTables ts).filter fun t => decide (0 < t.row_count)

/-- The importance test of line 1190: catalog importance or content. -/
def isImpData (t : TInfo) : Bool :=
  t.is_important || t.has_korean || t.has_email

/-- `important_data`: collected in encounter order. -/
def important_data (ts : List TInfo) : List TInfo :=
  (dataTables ts).filter isImpData

/-- `other_data`: the rest, in encounter order. -/
def other_data (ts : List TInfo) : List TInfo :=
  (dataTables ts).filter fun t => !isImpData t

/-- `important_data + other_data`, the list the comprehensions of lines
1201-1207 and 1219 range over. -/
def pooled_data (ts : List TInfo) : List TInfo :=
  important_data ts ++ other_data ts

/-- `korean_data` (line 1201). -/
def korean_data (ts : List TInfo) : List TInfo :=
  (pooled_data ts).filter (·.has_korean)

/-- `email_data` (line 1202). -/
def email_data (ts : List TInfo) : List TInfo :=
  (pooled_data ts).filter (·.has_email)

/-- `sum(t.get('row_count', 0) for t in important_data + other_data)`. -/
def db_total_rows (ts : List TInfo) : Nat :=
  ((pooled_data ts).map (·.row_count)).sum

/-- `has_meaningful_data` (lines 1197-1208). -/
def has_meaningful_data (priority : Nat) (ts : List TInfo) : Bool :=
  !(korean_data ts).isEmpty || !(email_data ts).isEmpty ||
    (decide (priority ≤ 2) && decide (50 ≤ db_total_rows ts))

/-- The whole inclusion gate: the outer test of line 1196 and the inner
`has_meaningful_data` test of line 1210. -/
def includeDb (priority : Nat) (ts : List TInfo) : Bool :=
  (!(important_data ts).isEmpty || (decide (priority ≤ 2) && !(other_data ts).isEmpty)) &&
    has_meaningful_data priority ts

/-- One evidence item (lines 1211-1222).  The sequential `id` is attached
afterwards by `assignIds`. -/
structure Evidence where
  id : Nat
  app_name : String
  db_path : String
  category : String
  priority : Nat
  important_tables : List TInfo
  other_tables : List TInfo
  total_rows : Nat
  korean_data : List TInfo
  email_data : List TInfo
deriving DecidableEq, Repr

/-- The per-database half of the report loop: zero or one evidence item;
a database passing neither branch of the gate yields `none` (dropped with
no error record anywhere — the function is total). -/
def buildEvidence (db : DbSummary) : Option Evidence :=
  let app := appNameOf db
  let cp := categorize app
  if includeDb cp.2 db.tables then
    some
      { id := 0, app_name := app, db_path := db.rel_path, category := cp.1, priority := cp.2
        important_tables := important_data db.tables, other_tables := other_data db.tables
        total_rows := db_total_rows db.tables, korean_data := korean_data db.tables
        email_data := email_data db.tables }
  else none

/-- `evidence_counter`: items are numbered 1, 2, ... in discovery order. -/
def assignIds (l : List Evidence) : List Evidence :=
  l.enum.map fun ie => { ie.2 with id := ie.1 + 1 }

/-- The discovery-ordered evidence list, before the final sort. -/
def evidence_pre (dbs : List DbSummary) : List Evidence :=
  assignIds (dbs.filterMap buildEvidence)

/-- The final ranked list:
`evidence_items.sort(key=lambda x: (x["priority"], -x["total_rows"]))`
(line 1226). -/
def evidence_items (dbs : List DbSummary) : List Evidence :=
  sortByKey (fun e => (e.priority, e.total_rows)) (evidence_pre dbs)

/-! ### Principal identity (`main_account`, lines 1177-1187) -/

/-- The denylist test `any(x in emails[0] for x in [...])`. -/
def denylisted (e : String) : Bool :=
  ["noreply", "no-reply", "support"].any fun x => strContains e x

/-- The cell step of the `main_account` search: only the FIRST extracted
address of the cell is inspected; if it carries a denylist substring the
whole cell yields nothing. -/
def principalFromCell (c : Cell) : Option String :=
  match extract_emails (cellStr c) with
  | [] => none
  | e :: _ => if denylisted e then none else some e

/-- The rows of a table record, empty for a sentinel (whose `has_email`
gate is false anyway). -/
def rowsOf (t : TInfo) : List Row :=
  match t.rowsField with
  | .rows rs => rs
  | .errorText _ => []

/-- The table step: only non-sentinel tables with data and `has_email`
are scanned; rows and cells in encounter order, first hit wins. -/
def principalFromTable (t : TInfo) : Option String :=
  if !isErrName t && decide (0 < t.row_count) && t.has_email then
    (rowsOf t).findSome? fun row => row.findSome? principalFromCell
  else none

/-- `main_account` over the whole report input: databases, tables, rows and
cells in encounter order; the `if not main_account` guards make the first
hit final. -/
def wa3_principal (dbs : List DbSummary) : Option String :=
  dbs.findSome? fun db => db.tables.findSome? principalFromTable

/-- Modelled from the spec (for refinement comparison only, not from the
source): "the first extracted email address not matching a denylist of
generic addresses is selected", i.e. flatten ALL extracted addresses of the
scanned cells in encounter order and take the first one passing the
denylist. -/
def spec_principal (dbs : List DbSummary) : Option String :=
  ((dbs.flatMap fun db =>
      (db.tables.filter fun t => !isErrName t && decide (0 < t.row_count) && t.has_email).flatMap
        fun t => (rowsOf t).flatMap fun row =>
          row.flatMap fun c => extract_emails (cellStr c)).find?
    fun e => !denylisted e)

/-! ## Helper lemmas -/

theorem has_korean_text_iff (s : String) :
    has_korean_text s = true ↔ 0 < count_korean_chars s := by
  simp only [has_korean_text, count_korean_chars, List.any_eq_true, List.length_pos]
  constructor
  · rintro ⟨c, hc, hh⟩ hnil
    have := List.filter_eq_nil_iff.mp hnil c hc
    exact this hh
  · intro h
    by_contra hall
    push_neg at hall
    exact h (List.filter_eq_nil_iff.mpr fun c hc => by simpa using hall c hc)

theorem has_email_pattern_iff (s : String) :
    has_email_pattern s = true ↔ 0 < (extract_emails s).length := by
  simp [has_email_pattern, List.isEmpty_iff, List.length_pos]

theorem analyzeOneTable_table (pats : Option (List String)) (t : TableData) :
    (analyzeOneTable pats t).table = t.name := by
  unfold analyzeOneTable
  cases t.schemaQ with
  | error e => rfl
  | ok cols =>
    cases t.countQ with
    | error e => rfl
    | ok n =>
      cases t.sampleQ with
      | error e => rfl
      | ok rows => rfl

theorem orderTables_perm (pats : Option (List String)) (ts : List TableData) :
    (orderTables pats ts).Perm ts := by
  cases pats with
  | none => exact List.Perm.refl ts
  | some ps => exact List.filter_append_perm _ ts

/-! ## C5 — content classification counts -/

/-- **C5**: a sampled cell whose text carries `N > 0` Hangul code points and
`M > 0` email-pattern matches is classified with `has_korean = true`,
`korean_count = N`, `has_email = true` and `email_count = M` (`N` and `M`
are by definition `count_korean_chars` and the length of `extract_emails`,
which counts repeated identical addresses separately); and a `None` cell is
coerced to empty text, contributing zero matches — `analyze_table_content`
is total, so no input raises. -/
theorem wa3_classifier_counts (nm : String) (cols : List String) (n : Nat) (b : Bool)
    (s : String) (hK : 0 < count_korean_chars s) (hE : 0 < (extract_emails s).length) :
    ((analyze_table_content ⟨nm, cols, [[some s]], n, b⟩).has_korean = true
      ∧ (analyze_table_content ⟨nm, cols, [[some s]], n, b⟩).korean_count = count_korean_chars s
      ∧ (analyze_table_content ⟨nm, cols, [[some s]], n, b⟩).has_email = true
      ∧ (analyze_table_content ⟨nm, cols, [[some s]], n, b⟩).email_count
          = (extract_emails s).length)
    ∧ analyze_table_content ⟨nm, cols, [[none]], n, b⟩ =
        { table := nm, columns := cols, rowsField := .rows [[none]], row_count := n
          is_important := b, has_korean := false, has_email := false
          korean_count := 0, email_count := 0 } := by
  have hk : has_korean_text s = true := (has_korean_text_iff s).mpr hK
  have he : has_email_pattern s = true := by
    rw [has_email_pattern_iff]; exact hE
  constructor
  · simp [analyze_table_content, classifyRows, classifyCell, cellStr, hk, he]
  · simp [analyze_table_content, classifyRows, classifyCell, cellStr, has_korean_text,
      has_email_pattern, extract_emails, scanEmails, count_korean_chars]

/-- Witness for C5 at `"안녕 a@b.com a@b.com"`: two Hangul code points and
the same address extracted twice (each occurrence counts). -/
theorem wa3_classifier_counts_witness :
    ((analyze_table_content ⟨"t", ["c"], [[some "안녕 a@b.com a@b.com"]], 7, false⟩).has_korean
        = true
      ∧ (analyze_table_content ⟨"t", ["c"], [[some "안녕 a@b.com a@b.com"]], 7, false⟩).korean_count
          = count_korean_chars "안녕 a@b.com a@b.com"
      ∧ (analyze_table_content ⟨"t", ["c"], [[some "안녕 a@b.com a@b.com"]], 7, false⟩).has_email
          = true
      ∧ (analyze_table_content ⟨"t", ["c"], [[some "안녕 a@b.com a@b.com"]], 7, false⟩).email_count
          = (extract_emails "안녕 a@b.com a@b.com").length)
    ∧ analyze_table_content ⟨"t", ["c"], [[none]], 7, false⟩ =
        { table := "t", columns := ["c"], rowsField := .rows [[none]], row_count := 7
          is_important := false, has_korean := false, has_email := false
          korean_count := 0, email_count := 0 } :=
  wa3_classifier_counts "t" ["c"] 7 false "안녕 a@b.com a@b.com" (by decide) (by decide)

/-! ## C7 — per-table fault isolation in the introspector -/

/-- The first of the three per-table queries that failed, if any (they run
in source order inside one `try`). -/
def firstQueryError (t : TableData) : Option String :=
  match t.schemaQ with
  | .error e => some e
  | .ok _ =>
    match t.countQ with
    | .error e => some e
    | .ok _ =>
      match t.sampleQ with
      | .error e => some e
      | .ok _ => none

/-- **C7**: with the candidate staged, (a) a database-open failure yields
the single whole-database sentinel and nothing else (introspection of that
file halts); (b) on a successful open every table of the reordered list is
analyzed by the same independent per-table step, so one table's outcome
cannot affect a sibling's entry; (c) a table whose first failing query
raised `e` becomes the sentinel `querySentinel`, which carries `row_count
0` and the error text in place of rows; (d) a table whose three queries
succeeded is returned normally (fully classified, not a sentinel). -/
theorem wa3_introspector_fault_isolation (env : SandboxEnv) (tempDir dbP : String)
    (app : Option String) (tabs : List TableData)
    (hcopy : copy_db_with_sudo env tempDir dbP ≠ none) :
    (∀ e, analyze_sqlite_db env tempDir dbP ⟨.error e⟩ app = [dbErrorSentinel e])
    ∧ (analyze_sqlite_db env tempDir dbP ⟨.ok tabs⟩ app =
        (orderTables (app.bind get_important_tables_by_app) tabs).map
          (analyzeOneTable (app.bind get_important_tables_by_app)))
    ∧ (∀ t : TableData, ∀ e, firstQueryError t = some e →
        analyzeOneTable (app.bind get_important_tables_by_app) t = querySentinel t.name e
          ∧ (querySentinel t.name e).row_count = 0
          ∧ (querySentinel t.name e).rowsField = .errorText ("테이블 분석 오류: " ++ e))
    ∧ (∀ t : TableData, ∀ cols n rows, t.schemaQ = .ok cols → t.countQ = .ok n →
        t.sampleQ = .ok rows →
        analyzeOneTable (app.bind get_important_tables_by_app) t =
          analyze_table_content
            { table := t.name, columns := cols, rows := rows, row_count := n
              is_important :=
                match app.bind get_important_tables_by_app with
                | some ps => isImpName ps t.name
                | none => false }) := by
  obtain ⟨p, hp⟩ := Option.ne_none_iff_exists'.mp hcopy
  refine ⟨?_, ?_, ?_, ?_⟩
  · intro e
    simp [analyze_sqlite_db, hp]
  · simp [analyze_sqlite_db, hp]
  · intro t e he
    refine ⟨?_, rfl, rfl⟩
    unfold firstQueryError at he
    unfold analyzeOneTable
    cases hs : t.schemaQ with
    | error e1 => rw [hs] at he; cases he; rfl
    | ok cols =>
      rw [hs] at he
      cases hc : t.countQ with
      | error e2 => rw [hc] at he; cases he; rfl
      | ok n =>
        rw [hc] at he
        cases hr : t.sampleQ with
        | error e3 => rw [hr] at he; cases he; rfl
        | ok rows => rw [hr] at he; cases he
  · intro t cols n rows hs hc hr
    unfold analyzeOneTable
    rw [hs, hc, hr]

/-- Witness for C7: a two-table database whose second table's count query
raises `boom` while the first is returned normally. -/
theorem wa3_introspector_fault_isolation_witness :
    (∀ e, analyze_sqlite_db ⟨true, true, true, true, true⟩ "tmp" "x.db" ⟨.error e⟩
        (some "com.whatsapp") = [dbErrorSentinel e])
    ∧ (analyze_sqlite_db ⟨true, true, true, true, true⟩ "tmp" "x.db"
        ⟨.ok [⟨"props", .ok ["k"], .ok 3, .ok [[some "v"]]⟩,
              ⟨"messages", .ok ["id"], .error "boom", .ok []⟩]⟩ (some "com.whatsapp") =
        (orderTables ((some "com.whatsapp").bind get_important_tables_by_app)
            [⟨"props", .ok ["k"], .ok 3, .ok [[some "v"]]⟩,
             ⟨"messages", .ok ["id"], .error "boom", .ok []⟩]).map
          (analyzeOneTable ((some "com.whatsapp").bind get_important_tables_by_app)))
    ∧ (∀ t : TableData, ∀ e, firstQueryError t = some e →
        analyzeOneTable ((some "com.whatsapp").bind get_important_tables_by_app) t =
            querySentinel t.name e
          ∧ (querySentinel t.name e).row_count = 0
          ∧ (querySentinel t.name e).rowsField = .errorText ("테이블 분석 오류: " ++ e))
    ∧ (∀ t : TableData, ∀ cols n rows, t.schemaQ = .ok cols → t.countQ = .ok n →
        t.sampleQ = .ok rows →
        analyzeOneTable ((some "com.whatsapp").bind get_important_tables_by_app) t =
          analyze_table_content
            { table := t.name, columns := cols, rows := rows, row_count := n
              is_important :=
                match (some "com.whatsapp").bind get_important_tables_by_app with
                | some ps => isImpName ps t.name
                | none => false }) :=
  wa3_introspector_fault_isolation ⟨true, true, true, true, true⟩ "tmp" "x.db"
    (some "com.whatsapp")
    [⟨"props", .ok ["k"], .ok 3, .ok [[some "v"]]⟩,
     ⟨"messages", .ok ["id"], .error "boom", .ok []⟩] (by decide)

/-! ## C9 — important-table reordering is a permutation -/

/-- **C9**: on a successfully staged and opened database, the introspector's
output table sequence is a permutation of the database's complete table
list; when the owning app has an important-pattern set, every table whose
name matches some pattern (case-insensitive substring) precedes every table
matching none; when the app has no pattern set, the sequence keeps the
original enumeration order exactly. -/
theorem wa3_table_reordering (env : SandboxEnv) (tempDir dbP app : String)
    (tabs : List TableData)
    (hcopy : copy_db_with_sudo env tempDir dbP ≠ none) :
    ((analyze_sqlite_db env tempDir dbP ⟨.ok tabs⟩ (some app)).map (·.table)).Perm
        (tabs.map (·.name))
    ∧ (∀ ps, get_important_tables_by_app app = some ps →
        ((analyze_sqlite_db env tempDir dbP ⟨.ok tabs⟩ (some app)).map (·.table)).Pairwise
          fun a b => isImpName ps b = true → isImpName ps a = true)
    ∧ (get_important_tables_by_app app = none →
        (analyze_sqlite_db env tempDir dbP ⟨.ok tabs⟩ (some app)).map (·.table)
          = tabs.map (·.name)) := by
  obtain ⟨p, hp⟩ := Option.ne_none_iff_exists'.mp hcopy
  have hout : analyze_sqlite_db env tempDir dbP ⟨.ok tabs⟩ (some app) =
      (orderTables (get_important_tables_by_app app) tabs).map
        (analyzeOneTable (get_important_tables_by_app app)) := by
    simp [analyze_sqlite_db, hp]
  have hnames : ∀ (ps : Option (List String)) (l : List TableData),
      ((l.map (analyzeOneTable ps)).map (·.table)) = l.map (·.name) := by
    intro ps l
    rw [List.map_map]
    exact List.map_congr_left fun t _ => analyzeOneTable_table ps t
  refine ⟨?_, ?_, ?_⟩
  · rw [hout, hnames]
    exact (orderTables_perm _ tabs).map _
  · intro ps hps
    rw [hout, hps, hnames]
    unfold orderTables
    rw [List.map_append]
    refine List.pairwise_append.mpr ⟨?_, ?_, ?_⟩
    · refine List.pairwise_of_forall_mem_list ?_
      intro a ha b _ _
      obtain ⟨t, ht, rfl⟩ := List.mem_map.mp ha
      exact (List.mem_filter.mp ht).2
    · refine List.pairwise_of_forall_mem_list ?_
      intro a _ b hb hib
      obtain ⟨t, ht, rfl⟩ := List.mem_map.mp hb
      have := (List.mem_filter.mp ht).2
      rw [hib] at this
      cases this
    · intro a ha b hb hib
      obtain ⟨t, ht, rfl⟩ := List.mem_map.mp hb
      have := (List.mem_filter.mp ht).2
      rw [hib] at this
      cases this
  · intro hps
    rw [hout, hps, hnames]
    rfl

/-- Witness for C9: a WhatsApp database enumerated as
`[props, messages]`; `messages` matches the pattern set and is listed
first. -/
theorem wa3_table_reordering_witness :
    ((analyze_sqlite_db ⟨true, true, true, true, true⟩ "tmp" "msgstore.db"
        ⟨.ok [⟨"props", .ok [], .ok 3, .ok []⟩, ⟨"messages", .ok [], .ok 5, .ok []⟩]⟩
        (some "com.whatsapp")).map (·.table)).Perm
        ([⟨"props", .ok [], .ok 3, .ok []⟩,
          (⟨"messages", .ok [], .ok 5, .ok []⟩ : TableData)].map (·.name))
    ∧ (∀ ps, get_important_tables_by_app "com.whatsapp" = some ps →
        ((analyze_sqlite_db ⟨true, true, true, true, true⟩ "tmp" "msgstore.db"
            ⟨.ok [⟨"props", .ok [], .ok 3, .ok []⟩, ⟨"messages", .ok [], .ok 5, .ok []⟩]⟩
            (some "com.whatsapp")).map (·.table)).Pairwise
          fun a b => isImpName ps b = true → isImpName ps a = true)
    ∧ (get_important_tables_by_app "com.whatsapp" = none →
        (analyze_sqlite_db ⟨true, true, true, true, true⟩ "tmp" "msgstore.db"
            ⟨.ok [⟨"props", .ok [], .ok 3, .ok []⟩, ⟨"messages", .ok [], .ok 5, .ok []⟩]⟩
            (some "com.whatsapp")).map (·.table)
          = [⟨"props", .ok [], .ok 3, .ok []⟩,
             (⟨"messages", .ok [], .ok 5, .ok []⟩ : TableData)].map (·.name)) :=
  wa3_table_reordering ⟨true, true, true, true, true⟩ "tmp" "msgstore.db" "com.whatsapp"
    [⟨"props", .ok [], .ok 3, .ok []⟩, ⟨"messages", .ok [], .ok 5, .ok []⟩] (by decide)

/-! ## C8 — sandbox staging failures -/

/-- The per-candidate loop of `run_forensic_analysis` (wa3.py lines
2078-2098): each candidate is analyzed independently. -/
def run_db_analyses (tempDir : String)
    (cands : List (SandboxEnv × String × DbFile × Option String)) : List (List TInfo) :=
  cands.map fun c => analyze_sqlite_db c.1 tempDir c.2.1 c.2.2.1 c.2.2.2

/-- Counterexample to C8 as stated: with the copy succeeded but `chmod`
failed (respectively `chown` failed), `copy_db_with_sudo` still returns the
staged path — the source only logs those two failures — and the database is
analyzed normally instead of being excluded through a sentinel entry. -/
theorem wa3_sandbox_chmod_cex :
    copy_db_with_sudo ⟨true, true, false, true, true⟩ "tmp" "x.db" = some "tmp/x.db"
    ∧ copy_db_with_sudo ⟨true, true, true, false, true⟩ "tmp" "x.db" = some "tmp/x.db"
    ∧ analyze_sqlite_db ⟨true, true, false, true, true⟩ "tmp" "x.db"
        ⟨.ok [⟨"t", .ok ["c"], .ok 1, .ok [[some "v"]]⟩]⟩ none
      = [analyze_table_content ⟨"t", ["c"], [[some "v"]], 1, false⟩]
    ∧ analyze_table_content ⟨"t", ["c"], [[some "v"]], 1, false⟩ ≠ copyErrorSentinel "x.db" :=
  ⟨rfl, rfl, rfl, by decide⟩

/-- **C8 (amended)**: failure of the copy step (the copy command failing or
the copied file missing afterwards) yields a sandbox failure for that
candidate and excludes the database from analysis through the `COPY_ERROR`
sentinel entry; the chmod and chown steps are fallible and logged, but
their outcome never changes the staging result; and one candidate's
analysis never aborts the surrounding run — every other candidate of the
loop is analyzed exactly as it would be alone. -/
theorem wa3_sandbox_failure_handling (env : SandboxEnv) (tempDir dbP : String)
    (db : DbFile) (app : Option String) :
    (env.copyOk = false ∨ env.copiedExists = false ∨ env.finalExists = false →
      copy_db_with_sudo env tempDir dbP = none
      ∧ analyze_sqlite_db env tempDir dbP db app = [copyErrorSentinel dbP])
    ∧ (∀ b c : Bool,
        copy_db_with_sudo { env with chmodOk := b, chownOk := c } tempDir dbP
          = copy_db_with_sudo env tempDir dbP)
    ∧ (∀ pre post : List (SandboxEnv × String × DbFile × Option String),
        run_db_analyses tempDir (pre ++ (env, dbP, db, app) :: post)
          = run_db_analyses tempDir pre
            ++ analyze_sqlite_db env tempDir dbP db app :: run_db_analyses tempDir post) := by
  refine ⟨?_, ?_, ?_⟩
  · intro h
    have hnone : copy_db_with_sudo env tempDir dbP = none := by
      unfold copy_db_with_sudo
      rcases h with h | h | h <;>
        rcases hk : env.copyOk <;> rcases hc : env.copiedExists <;>
          rcases hf : env.finalExists <;> simp_all
    exact ⟨hnone, by simp [analyze_sqlite_db, hnone]⟩
  · intro b c
    unfold copy_db_with_sudo
    rfl
  · intro pre post
    simp [run_db_analyses]

/-- Witness for C8 (amended), at a failing copy. -/
theorem wa3_sandbox_failure_handling_witness :
    copy_db_with_sudo ⟨false, true, true, true, true⟩ "tmp" "y.db" = none
    ∧ analyze_sqlite_db ⟨false, true, true, true, true⟩ "tmp" "y.db"
        ⟨.ok []⟩ none = [copyErrorSentinel "y.db"] :=
  (wa3_sandbox_failure_handling ⟨false, true, true, true, true⟩ "tmp" "y.db"
    ⟨.ok []⟩ none).1 (Or.inl rfl)

/-! ## C1 — the database inclusion rule -/

theorem pooled_perm (ts : List TInfo) : (pooled_data ts).Perm (dataTables ts) :=
  List.filter_append_perm _ _

theorem db_total_rows_eq (ts : List TInfo) :
    db_total_rows ts = ((nonErrorTables ts).map (·.row_count)).sum := by
  unfold db_total_rows
  have h1 : ((pooled_data ts).map (·.row_count)).sum
      = ((dataTables ts).map (·.row_count)).sum :=
    ((pooled_perm ts).map _).sum_eq
  have h2 :=
    ((List.filter_append_perm (fun t => decide (0 < t.row_count)) (nonErrorTables ts)).map
      (fun t : TInfo => t.row_count)).sum_eq
  have h4 : ((List.filter (fun t : TInfo => !decide (0 < t.row_count))
      (nonErrorTables ts)).map (·.row_count)).sum = 0 := by
    apply List.sum_eq_zero
    intro x hx
    obtain ⟨t, ht, rfl⟩ := List.mem_map.mp hx
    have := (List.mem_filter.mp ht).2
    simp only [Bool.not_eq_true', decide_eq_false_iff_not] at this
    omega
  rw [h1, ← h2, List.map_append, List.sum_append, h4]
  rfl

theorem content_mem_iff (ts : List TInfo)
    (hwf : ∀ t ∈ ts, (t.has_korean || t.has_email) = true → 0 < t.row_count) :
    (korean_data ts ≠ [] ∨ email_data ts ≠ []) ↔
      ∃ t ∈ nonErrorTables ts, (t.has_korean || t.has_email) = true := by
  constructor
  · rintro (h | h)
    · obtain ⟨t, ht⟩ := List.exists_mem_of_ne_nil _ h
      have h1 := List.mem_filter.mp ht
      have h2 := (pooled_perm ts).mem_iff.mp h1.1
      have h3 := List.mem_filter.mp h2
      exact ⟨t, h3.1, by simp [h1.2]⟩
    · obtain ⟨t, ht⟩ := List.exists_mem_of_ne_nil _ h
      have h1 := List.mem_filter.mp ht
      have h2 := (pooled_perm ts).mem_iff.mp h1.1
      have h3 := List.mem_filter.mp h2
      exact ⟨t, h3.1, by simp [h1.2]⟩
  · rintro ⟨t, htne, hc⟩
    have hts : t ∈ ts := (List.mem_filter.mp htne).1
    have hrc : 0 < t.row_count := hwf t hts hc
    have hdata : t ∈ dataTables ts := List.mem_filter.mpr ⟨htne, by simpa using hrc⟩
    have hpool : t ∈ pooled_data ts := (pooled_perm ts).mem_iff.mpr hdata
    rcases Bool.or_eq_true _ _ |>.mp hc with hk | he
    · exact Or.inl (List.ne_nil_of_mem (List.mem_filter.mpr ⟨hpool, hk⟩))
    · exact Or.inr (List.ne_nil_of_mem (List.mem_filter.mpr ⟨hpool, he⟩))

/-- **C1**: under the introspector's invariant that a table flagged for
content was sampled from at least one row (`has_korean`/`has_email` implies
a positive row count), a database becomes an evidence item exactly when
some non-sentinel table has target-script or email content, or the owning
app's priority is ≤ 2 and the aggregate row count over its analyzed tables
is ≥ 50; a database meeting neither condition yields `none` — the silently
dropped case, with no error record (`buildEvidence` is total). -/
theorem wa3_db_inclusion_iff (db : DbSummary)
    (hwf : ∀ t ∈ db.tables, (t.has_korean || t.has_email) = true → 0 < t.row_count) :
    (buildEvidence db).isSome = true ↔
      ((∃ t ∈ nonErrorTables db.tables, (t.has_korean || t.has_email) = true) ∨
        ((categorize (appNameOf db)).2 ≤ 2 ∧
          50 ≤ ((nonErrorTables db.tables).map (·.row_count)).sum)) := by
  have hbe : (buildEvidence db).isSome
      = includeDb (categorize (appNameOf db)).2 db.tables := by
    rcases hinc : includeDb (categorize (appNameOf db)).2 db.tables
    · simp [buildEvidence, hinc]
    · simp [buildEvidence, hinc]
  rw [hbe]
  unfold includeDb has_meaningful_data
  rw [← db_total_rows_eq]
  constructor
  · intro h
    rw [Bool.and_eq_true] at h
    rcases Bool.or_eq_true _ _ |>.mp h.2 with hm | hm
    · rcases Bool.or_eq_true _ _ |>.mp hm with hk | hk
      · refine Or.inl ((content_mem_iff db.tables hwf).mp (Or.inl ?_))
        simpa [List.isEmpty_iff] using hk
      · refine Or.inl ((content_mem_iff db.tables hwf).mp (Or.inr ?_))
        simpa [List.isEmpty_iff] using hk
    · rw [Bool.and_eq_true, decide_eq_true_iff, decide_eq_true_iff] at hm
      exact Or.inr hm
  · intro h
    rw [Bool.and_eq_true]
    rcases h with hc | ⟨hp, hr⟩
    · obtain ⟨t, htne, htc⟩ := hc
      have hts : t ∈ db.tables := (List.mem_filter.mp htne).1
      have hrc : 0 < t.row_count := hwf t hts htc
      have hdata : t ∈ dataTables db.tables := List.mem_filter.mpr ⟨htne, by simpa using hrc⟩
      have himp : t ∈ important_data db.tables := by
        refine List.mem_filter.mpr ⟨hdata, ?_⟩
        rcases Bool.or_eq_true _ _ |>.mp htc with hk | hk <;> simp [isImpData, hk]
      have hkem := (content_mem_iff db.tables hwf).mpr ⟨t, htne, htc⟩
      constructor
      · apply Bool.or_eq_true _ _ |>.mpr
        left
        simpa [List.isEmpty_iff] using List.ne_nil_of_mem himp
      · apply Bool.or_eq_true _ _ |>.mpr
        rcases hkem with hk | hk
        · exact Or.inl (Bool.or_eq_true _ _ |>.mpr (Or.inl (by simpa [List.isEmpty_iff] using hk)))
        · exact Or.inl (Bool.or_eq_true _ _ |>.mpr (Or.inr (by simpa [List.isEmpty_iff] using hk)))
    · have hpool : pooled_data db.tables ≠ [] := by
        intro hnil
        rw [db_total_rows_eq] at hr
        have : db_total_rows db.tables = 0 := by
          unfold db_total_rows
          rw [hnil]
          rfl
        rw [db_total_rows_eq] at this
        omega
      obtain ⟨t, ht⟩ := List.exists_mem_of_ne_nil _ hpool
      constructor
      · apply Bool.or_eq_true _ _ |>.mpr
        rcases List.mem_append.mp ht with hi | ho
        · exact Or.inl (by simpa [List.isEmpty_iff] using List.ne_nil_of_mem hi)
        · refine Or.inr (Bool.and_eq_true _ _ |>.mpr ⟨by simpa using hp, ?_⟩)
          simpa [List.isEmpty_iff] using List.ne_nil_of_mem ho
      · apply Bool.or_eq_true _ _ |>.mpr
        exact Or.inr (Bool.and_eq_true _ _ |>.mpr ⟨by simpa using hp, by simpa using hr⟩)

/-- Witness for C1: a WhatsApp database (priority 1) with one table of 60
rows and no content hits is included through the aggregate-row branch, and
a system-priority database (priority 4) with 1000 rows and no content hits
is dropped. -/
theorem wa3_db_inclusion_iff_witness :
    (buildEvidence ⟨"com.whatsapp/databases/msgstore.db",
        [⟨"messages", ["id"], .rows [[some "hi"]], 60, true, false, false, 0, 0⟩]⟩).isSome
      = true
    ∧ (buildEvidence ⟨"com.samsung.app/databases/cache.db",
        [⟨"cache", ["id"], .rows [[some "x"]], 1000, false, false, false, 0, 0⟩]⟩).isSome
      = false := by
  constructor
  · exact (wa3_db_inclusion_iff
      ⟨"com.whatsapp/databases/msgstore.db",
        [⟨"messages", ["id"], .rows [[some "hi"]], 60, true, false, false, 0, 0⟩]⟩
      (by decide)).mpr (by decide)
  · have h := (wa3_db_inclusion_iff
      ⟨"com.samsung.app/databases/cache.db",
        [⟨"cache", ["id"], .rows [[some "x"]], 1000, false, false, false, 0, 0⟩]⟩
      (by decide))
    have hno := h.not.mpr (by decide)
    simpa using hno

/-! ## C10 — databases of uncataloged apps -/

theorem mem_of_pooled {ts : List TInfo} {t : TInfo} (h : t ∈ pooled_data ts) : t ∈ ts :=
  (List.mem_filter.mp (List.mem_filter.mp ((pooled_perm ts).mem_iff.mp h)).1).1

/-- **C10**: an app identifier matching no catalog rule is categorized
`("기타", 5)`, priority 5 lying outside the catalog's own 1–4 range; such a
database can produce an evidence item only when some analyzed table carries
target-script or email content (the priority-≤-2 aggregate-row branch is
unreachable at priority 5, whatever the row counts); and in the final
ranking every priority-5 item comes after every priority-1..4 item. -/
theorem wa3_default_priority_five (db : DbSummary) (dbs : List DbSummary)
    (hm : ∀ c ∈ app_categories, ∀ p ∈ c.apps, strContains (appNameOf db) p = false) :
    categorize (appNameOf db) = ("기타", 5)
    ∧ (∀ c ∈ app_categories, 1 ≤ c.priority ∧ c.priority ≤ 4)
    ∧ ((buildEvidence db).isSome = true →
        ∃ t ∈ nonErrorTables db.tables, (t.has_korean || t.has_email) = true)
    ∧ ((∀ t ∈ db.tables, t.has_korean = false ∧ t.has_email = false) →
        buildEvidence db = none)
    ∧ (evidence_items dbs).Pairwise fun a b => a.priority = 5 → 4 < b.priority := by
  have hcat : categorize (appNameOf db) = ("기타", 5) := by
    have hf : app_categories.find?
        (fun c => c.apps.any fun p => strContains (appNameOf db) p) = none := by
      apply List.find?_eq_none.mpr
      intro c hc hany
      obtain ⟨p, hp, hsp⟩ := List.any_eq_true.mp hany
      rw [hm c hc p hp] at hsp
      cases hsp
    unfold categorize
    rw [hf]
  have hkey : ∀ ts : List TInfo, includeDb 5 ts = true →
      korean_data ts ≠ [] ∨ email_data ts ≠ [] := by
    intro ts h
    have h2 := (Bool.and_eq_true _ _ |>.mp h).2
    unfold has_meaningful_data at h2
    rcases Bool.or_eq_true _ _ |>.mp h2 with h3 | h3
    · rcases Bool.or_eq_true _ _ |>.mp h3 with h4 | h4
      · exact Or.inl (by simpa [List.isEmpty_iff] using h4)
      · exact Or.inr (by simpa [List.isEmpty_iff] using h4)
    · rw [Bool.and_eq_true] at h3
      have := h3.1
      simp at this
  refine ⟨hcat, by decide, ?_, ?_, ?_⟩
  · intro hsome
    have hbe : (buildEvidence db).isSome = includeDb 5 db.tables := by
      rcases hinc : includeDb (categorize (appNameOf db)).2 db.tables
      · simp [buildEvidence, hinc, hcat ▸ hinc]
      · simp [buildEvidence, hinc, hcat ▸ hinc]
    rw [hbe] at hsome
    rcases hkey db.tables hsome with h | h
    · obtain ⟨t, ht⟩ := List.exists_mem_of_ne_nil _ h
      have h1 := List.mem_filter.mp ht
      have h2 := List.mem_filter.mp ((pooled_perm db.tables).mem_iff.mp h1.1)
      exact ⟨t, h2.1, by simp [h1.2]⟩
    · obtain ⟨t, ht⟩ := List.exists_mem_of_ne_nil _ h
      have h1 := List.mem_filter.mp ht
      have h2 := List.mem_filter.mp ((pooled_perm db.tables).mem_iff.mp h1.1)
      exact ⟨t, h2.1, by simp [h1.2]⟩
  · intro hnone
    have hk : korean_data db.tables = [] := by
      apply List.filter_eq_nil_iff.mpr
      intro t ht
      simp [(hnone t (mem_of_pooled ht)).1]
    have he : email_data db.tables = [] := by
      apply List.filter_eq_nil_iff.mpr
      intro t ht
      simp [(hnone t (mem_of_pooled ht)).2]
    have hinc : includeDb (categorize (appNameOf db)).2 db.tables = false := by
      rw [hcat]
      unfold includeDb has_meaningful_data
      rw [hk, he]
      simp
    simp [buildEvidence, hinc]
  · refine (sortByKey_pairwise _ _).imp ?_
    intro a b hab h5
    rcases hab with h | ⟨h, _⟩ <;> dsimp only at h <;> omega

/-- Witness for C10: an uncataloged app whose single table has Hangul
content. -/
theorem wa3_default_priority_five_witness :
    categorize (appNameOf ⟨"com.unknown.xyz/databases/a.db",
        [⟨"t", ["c"], .rows [[some "안녕"]], 1, false, true, false, 2, 0⟩]⟩) = ("기타", 5)
    ∧ (∀ c ∈ app_categories, 1 ≤ c.priority ∧ c.priority ≤ 4)
    ∧ ((buildEvidence ⟨"com.unknown.xyz/databases/a.db",
        [⟨"t", ["c"], .rows [[some "안녕"]], 1, false, true, false, 2, 0⟩]⟩).isSome = true →
        ∃ t ∈ nonErrorTables [(⟨"t", ["c"], .rows [[some "안녕"]], 1, false, true, false, 2, 0⟩
            : TInfo)], (t.has_korean || t.has_email) = true)
    ∧ ((∀ t ∈ [(⟨"t", ["c"], .rows [[some "안녕"]], 1, false, true, false, 2, 0⟩ : TInfo)],
          t.has_korean = false ∧ t.has_email = false) →
        buildEvidence ⟨"com.unknown.xyz/databases/a.db",
          [⟨"t", ["c"], .rows [[some "안녕"]], 1, false, true, false, 2, 0⟩]⟩ = none)
    ∧ (evidence_items []).Pairwise (fun a b => a.priority = 5 → 4 < b.priority) :=
  wa3_default_priority_five
    ⟨"com.unknown.xyz/databases/a.db",
      [⟨"t", ["c"], .rows [[some "안녕"]], 1, false, true, false, 2, 0⟩]⟩ [] (by decide)

/-! ## C4 — final evidence ordering -/

/-- **C4**: for every input, the final evidence list is a permutation of
the discovery-ordered list with priority non-decreasing, aggregate row
count non-increasing within equal priority, and the items tied on both
keys kept in their original discovery order (the embedding's sort — like
the source's stable `list.sort` — is a pure function, so identical input
yields identical output). -/
theorem wa3_evidence_final_ordering (dbs : List DbSummary) :
    (evidence_items dbs).Pairwise
        (fun a b => a.priority ≤ b.priority ∧
          (a.priority = b.priority → b.total_rows ≤ a.total_rows))
    ∧ (evidence_items dbs).Perm (evidence_pre dbs)
    ∧ ∀ k : Nat × Nat,
        (evidence_items dbs).filter (fun e => decide ((e.priority, e.total_rows) = k))
          = (evidence_pre dbs).filter (fun e => decide ((e.priority, e.total_rows) = k)) := by
  refine ⟨?_, sortByKey_perm _ _, fun k => filter_key_sortByKey _ k _⟩
  refine (sortByKey_pairwise _ _).imp ?_
  intro a b hab
  rcases hab with h | ⟨h, hr⟩
  · dsimp only at h
    exact ⟨Nat.le_of_lt h, fun he => absurd (he ▸ h) (Nat.lt_irrefl _)⟩
  · dsimp only at h hr
    exact ⟨Nat.le_of_eq h, fun _ => hr⟩

/-! ## C3 — principal identity selection -/

/-- A classified table whose single sampled cell holds a denylisted address
followed by an acceptable one. -/
def cexTable : TInfo :=
  analyze_table_content
    ⟨"contacts", ["data"], [[some "noreply@service.com alice@example.com"]], 1, false⟩

/-- A one-database input built from `cexTable`. -/
def cexDbs : List DbSummary :=
  [⟨"com.mail.app/databases/m.db", [cexTable]⟩]

/-- A classified table whose single sampled cell holds the claim's scenario
text, acceptable address first. -/
def scenTable : TInfo :=
  analyze_table_content
    ⟨"contacts", ["data"], [[some "alice@example.com noreply@service.com"]], 1, false⟩

/-- A one-database input built from `scenTable`. -/
def scenDbs : List DbSummary :=
  [⟨"com.mail.app/databases/m.db", [scenTable]⟩]

/-- Counterexample to C3 as stated: in a cell reading
`"noreply@service.com alice@example.com"` both addresses are extracted, so
the first extracted address that carries no denylist substring is
`alice@example.com` (what the claim — here `spec_principal`, modelled from
its words — selects); but the source inspects only `emails[0]` of each
cell, the denylisted `noreply@service.com`, and therefore selects nothing
at all. -/
theorem wa3_principal_claim_cex :
    extract_emails "noreply@service.com alice@example.com"
        = ["noreply@service.com", "alice@example.com"]
    ∧ spec_principal cexDbs = some "alice@example.com"
    ∧ wa3_principal cexDbs = none :=
  ⟨rfl, rfl, rfl⟩

/-- **C3 (amended)**: the scan visits databases, tables, rows and cells in
encounter order and stops at the first hit, but per cell only the FIRST
extracted address is consulted: the cell contributes that address if it
carries no denylist substring and nothing otherwise — later addresses of
the same cell are never considered.  For the claim's scenario order
(`alice@example.com` before `noreply@service.com`) both addresses are
extracted and `alice@example.com` is selected. -/
theorem wa3_principal_head_rule (c : Cell) (e : String) (es : List String)
    (h : extract_emails (cellStr c) = e :: es) :
    principalFromCell c = (if denylisted e then none else some e)
    ∧ (∀ sel : String, ∀ dbs1 dbs2 : List DbSummary, wa3_principal dbs1 = some sel →
        wa3_principal (dbs1 ++ dbs2) = some sel)
    ∧ extract_emails "alice@example.com noreply@service.com"
        = ["alice@example.com", "noreply@service.com"]
    ∧ wa3_principal scenDbs = some "alice@example.com" := by
  refine ⟨?_, ?_, rfl, rfl⟩
  · unfold principalFromCell
    rw [h]
  · intro sel dbs1 dbs2 hsel
    unfold wa3_principal at hsel ⊢
    rw [List.findSome?_append, hsel]
    rfl

/-- Witness for C3 (amended), at a cell whose first address is denylisted:
it yields nothing even though a clean address follows. -/
theorem wa3_principal_head_rule_witness :
    principalFromCell (some "noreply@service.com alice@example.com")
        = (if denylisted "noreply@service.com" then none else some "noreply@service.com")
    ∧ (∀ sel : String, ∀ dbs1 dbs2 : List DbSummary, wa3_principal dbs1 = some sel →
        wa3_principal (dbs1 ++ dbs2) = some sel)
    ∧ extract_emails "alice@example.com noreply@service.com"
        = ["alice@example.com", "noreply@service.com"]
    ∧ wa3_principal scenDbs = some "alice@example.com" :=
  wa3_principal_head_rule (some "noreply@service.com alice@example.com")
    "noreply@service.com" ["alice@example.com"] rfl

/-! ## C2 — no catch-all strategy in the wa3 scanner -/

/-- A filesystem holding one conventional database of a navigation app
(priority 3, so outside every priority-≤-2 catalog pattern). -/
def fsNav : ScanFS :=
  { rootEntries := [⟨"net.daum.android.map", true, 0⟩]
    dbEntries := fun n =>
      if n == "net.daum.android.map" then [⟨"map.db", false, 100⟩] else [] }

/-- Counterexample to C2 as stated: `fsNav` exposes the conventional
database `data/net.daum.android.map/databases/map.db`, yet the merged
candidate list of `find_database_files` (wa3.py) is empty — the function
has no broad recursive catch-all, only the targeted probe of priority-≤-2
apps.  Only the separate `find_databases` of wa.py discovers the file. -/
theorem wa3_scanner_no_catchall_cex :
    (⟨"net.daum.android.map", true, 0⟩ : DirEntry) ∈ fsNav.rootEntries
    ∧ (⟨"map.db", false, 100⟩ : DirEntry) ∈ fsNav.dbEntries "net.daum.android.map"
    ∧ find_database_files fsNav = []
    ∧ wa_find_databases fsNav = [dbPath "net.daum.android.map" "map.db"] :=
  ⟨by decide, by decide, rfl, rfl⟩

/-- **C2 (amended)**: every candidate in the wa3 scanner's merged list owes
its discovery to a priority-≤-2 catalog pattern matching its app folder —
apps matching no such pattern are never discovered by `find_database_files`
— while wa.py's separate `find_databases` glob does reach every
conventional `.db` file of every app folder regardless of the catalog. -/
theorem wa3_scanner_membership (fs : ScanFS) :
    (∀ d ∈ find_database_files_info fs,
        ∃ c ∈ app_categories, c.priority ≤ 2 ∧
          ∃ p ∈ c.apps, strContains d.app_name p = true)
    ∧ (∀ e ∈ fs.rootEntries, e.isDir = true →
        ∀ f ∈ fs.dbEntries e.name, f.isDir = false → strEndsWith f.name ".db" = true →
          dbPath e.name f.name ∈ wa_find_databases fs) := by
  constructor
  · intro d hd
    have hd2 : d ∈ db_info_list fs := (sortByKey_perm _ _).mem_iff.mp hd
    obtain ⟨acp, hacp, hdm⟩ := List.mem_flatMap.mp hd2
    obtain ⟨nsz, _, rfl⟩ := List.mem_map.mp hdm
    obtain ⟨c, hc, hcm⟩ := List.mem_flatMap.mp hacp
    by_cases hp : c.priority ≤ 2
    · rw [if_pos hp] at hcm
      obtain ⟨pat, hpat, hfm⟩ := List.mem_flatMap.mp hcm
      obtain ⟨a, _, hif⟩ := List.mem_filterMap.mp hfm
      by_cases hs : strContains a pat = true
      · rw [if_pos hs] at hif
        injection hif with hif
        refine ⟨c, hc, hp, pat, hpat, ?_⟩
        show strContains acp.1 pat = true
        rw [← hif]
        exact hs
      · rw [if_neg hs] at hif
        cases hif
    · rw [if_neg hp] at hcm
      cases hcm
  · intro e he hdir f hf hfd hdb
    unfold wa_find_databases
    apply List.mem_flatMap.mpr
    refine ⟨e, List.mem_filter.mpr ⟨he, hdir⟩, ?_⟩
    apply List.mem_filterMap.mpr
    refine ⟨f, hf, ?_⟩
    rw [if_pos]
    rw [hfd, hdb]
    rfl

/-- Witness for C2 (amended): applying it to `fsNav` discharges each
membership hypothesis and yields the catch-all membership in wa.py's list. -/
theorem wa3_scanner_membership_witness :
    dbPath "net.daum.android.map" "map.db" ∈ wa_find_databases fsNav :=
  (wa3_scanner_membership fsNav).2 ⟨"net.daum.android.map", true, 0⟩ (by decide) rfl
    ⟨"map.db", false, 100⟩ (by decide) rfl rfl

/-! ## C6 — deduplication and candidate ordering -/

/-- A filesystem whose single app folder name contains two messaging
catalog patterns (`com.kakao.talk` and `com.whatsapp`). -/
def fsDup : ScanFS :=
  { rootEntries := [⟨"com.kakao.talk.com.whatsapp", true, 0⟩]
    dbEntries := fun n =>
      if n == "com.kakao.talk.com.whatsapp" then [⟨"a.db", false, 10⟩] else [] }

/-- Counterexample to C6 as stated: the folder of `fsDup` matches two
catalog patterns, its probe runs twice, and the returned candidate list
carries the same absolute path twice — the scanner performs no
deduplication. -/
theorem wa3_scanner_duplicate_cex :
    find_database_files fsDup
      = [dbPath "com.kakao.talk.com.whatsapp" "a.db",
         dbPath "com.kakao.talk.com.whatsapp" "a.db"]
    ∧ ¬ (find_database_files fsDup).Nodup :=
  ⟨rfl, by decide⟩

theorem dbFilesOf_names_sublist (fs : ScanFS) (a : String) :
    ((dbFilesOf fs a).map (·.1)).Sublist ((fs.dbEntries a).map (·.name)) := by
  unfold dbFilesOf
  induction fs.dbEntries a with
  | nil => exact List.Sublist.refl _
  | cons f fl ih =>
    rw [List.filterMap_cons]
    by_cases hc : (!f.isDir && strEndsWith f.name ".db" && !(f.name == ".")
        && !(f.name == "..")) = true
    · rw [if_pos hc]
      exact List.Sublist.cons₂ _ ih
    · rw [if_neg hc]
      exact List.Sublist.cons _ ih

theorem dbPath_inj_app {a a' n n' : String} (h : dbPath a n = dbPath a' n') : a = a' := by
  simp only [dbPath, List.cons.injEq, and_true, true_and] at h
  exact h.1

theorem nodup_flatMap_dbPaths (fs : ScanFS) :
    ∀ l : List (String × String × Nat),
      (l.map (·.1)).Nodup →
      (∀ acp ∈ l, ((fs.dbEntries acp.1).map (·.name)).Nodup) →
      (l.flatMap fun acp => (dbFilesOf fs acp.1).map fun nsz => dbPath acp.1 nsz.1).Nodup
  | [], _, _ => List.nodup_nil
  | acp :: rest, h1, h2 => by
    rw [List.flatMap_cons]
    have hnd1 : ((dbFilesOf fs acp.1).map fun nsz => dbPath acp.1 nsz.1).Nodup := by
      have hnames : ((dbFilesOf fs acp.1).map (·.1)).Nodup :=
        List.Nodup.sublist (dbFilesOf_names_sublist fs acp.1) (h2 acp (List.mem_cons_self _ _))
      have hcomp : ((dbFilesOf fs acp.1).map fun nsz => dbPath acp.1 nsz.1)
          = ((dbFilesOf fs acp.1).map (·.1)).map (dbPath acp.1) := by
        rw [List.map_map]
        rfl
      rw [hcomp]
      refine hnames.map ?_
      intro x y hxy
      simp only [dbPath, List.cons.injEq, and_true, true_and] at hxy
      exact hxy
    have ih : (rest.flatMap fun acp' =>
        (dbFilesOf fs acp'.1).map fun nsz => dbPath acp'.1 nsz.1).Nodup :=
      nodup_flatMap_dbPaths fs rest
        (by
          have := h1
          rw [List.map_cons, List.nodup_cons] at this
          exact this.2)
        (fun a ha => h2 a (List.mem_cons_of_mem _ ha))
    refine List.nodup_append.mpr ⟨hnd1, ih, ?_⟩
    intro x hx hx2
    obtain ⟨nsz, _, rfl⟩ := List.mem_map.mp hx
    obtain ⟨acp', hacp', hm'⟩ := List.mem_flatMap.mp hx2
    obtain ⟨nsz', _, heq⟩ := List.mem_map.mp hm'
    have happ : acp'.1 = acp.1 := dbPath_inj_app heq
    have hhead : acp.1 ∉ rest.map (·.1) := by
      have := h1
      rw [List.map_cons, List.nodup_cons] at this
      exact this.1
    exact hhead (happ ▸ List.mem_map_of_mem _ hacp')

/-- **C6 (amended)**: the candidate list is always sorted by priority
ascending with ties broken by size descending; and it is free of duplicate
absolute paths provided each app folder is matched by at most one
priority-≤-2 catalog pattern (`priority_apps` mentions no folder twice) and
each probed `databases` listing holds no repeated file name — the scanner
itself never deduplicates, so a folder matching several patterns duplicates
every one of its paths (see the counterexample). -/
theorem wa3_scanner_sorted_and_nodup (fs : ScanFS)
    (h1 : ((priority_apps fs).map (·.1)).Nodup)
    (h2 : ∀ acp ∈ priority_apps fs, ((fs.dbEntries acp.1).map (·.name)).Nodup) :
    (find_database_files_info fs).Pairwise
        (fun d1 d2 => d1.priority ≤ d2.priority ∧
          (d1.priority = d2.priority → d2.size_bytes ≤ d1.size_bytes))
    ∧ (find_database_files fs).Nodup := by
  constructor
  · refine (sortByKey_pairwise _ _).imp ?_
    intro a b hab
    rcases hab with h | ⟨h, hr⟩
    · dsimp only at h
      exact ⟨Nat.le_of_lt h, fun he => absurd (he ▸ h) (Nat.lt_irrefl _)⟩
    · dsimp only at h hr
      exact ⟨Nat.le_of_eq h, fun _ => hr⟩
  · have hperm : (find_database_files fs).Perm ((db_info_list fs).map (·.path)) :=
      (sortByKey_perm _ _).map _
    rw [hperm.nodup_iff]
    have hmap : (db_info_list fs).map (·.path)
        = (priority_apps fs).flatMap fun acp =>
            (dbFilesOf fs acp.1).map fun nsz => dbPath acp.1 nsz.1 := by
      unfold db_info_list
      rw [List.map_flatMap]
      congr 1
      funext acp
      rw [List.map_map]
      rfl
    rw [hmap]
    exact nodup_flatMap_dbPaths fs (priority_apps fs) h1 h2

/-- A filesystem with a single WhatsApp folder holding two databases. -/
def fsW : ScanFS :=
  { rootEntries := [⟨"com.whatsapp", true, 0⟩]
    dbEntries := fun n =>
      if n == "com.whatsapp" then [⟨"msgstore.db", false, 10⟩, ⟨"wa.db", false, 99⟩] else [] }

/-- Witness for C6 (amended) on `fsW` (one matching pattern, two distinct
files): sorted by (priority, size descending) and duplicate-free. -/
theorem wa3_scanner_sorted_and_nodup_witness :
    (find_database_files_info fsW).Pairwise
        (fun d1 d2 => d1.priority ≤ d2.priority ∧
          (d1.priority = d2.priority → d2.size_bytes ≤ d1.size_bytes))
    ∧ (find_database_files fsW).Nodup :=
  wa3_scanner_sorted_and_nodup fsW (by decide) (by decide)
